import Mathlib

/-!
# MP3 player playback engine — formal model

Shallow embedding of the playback-and-transition core of `mp3_player.py`
(class `MP3Player`): playlist/transport bookkeeping, `_start_play`,
`play_pause`, `prev_track` / `next_track`, `_pick_shuffle_index`,
`toggle_shuffle`, `_on_volume`, `_halt_playback`, `clear_playlist`,
`_load_playlist_paths`, the `_poll_playback` auto-advance tick, and the
FFmpeg transcode fallback (`_transcode_to_wav`, `_ensure_playable_path`).

External collaborators are modelled as explicit inputs gathered in `Env`:
the pygame mixer's load/play outcomes and clock, the presence and exit
status of the external `ffmpeg` process, the duration probe, the random
number source, and file-system existence checks.  The GUI layer (labels,
icons, progress bar text) changes no engine state and is not modelled.
-/

namespace MP3

/-- A file path as the player manipulates it, mirroring the pieces of
`pathlib.Path` the engine reads: the parent directory, the `stem`, and the
`suffix` (extension, including the dot). -/
structure MediaPath where
  dir : String
  stem : String
  ext : String
deriving DecidableEq, Repr

/-- Model of `str(path)`: the full textual path, as hashed by `_transcode_to_wav`. -/
def pathStr (p : MediaPath) : String :=
  p.dir ++ "/" ++ p.stem ++ p.ext

/-- ASCII lowercasing of one character, modelling Python's `str.lower()`
on the ASCII range (all extensions compared by the player are ASCII). -/
def lowerChar (c : Char) : Char :=
  if 65 ≤ c.toNat ∧ c.toNat ≤ 90 then Char.ofNat (c.toNat + 32) else c

/-- ASCII lowercasing of a string (Python `str.lower()` as used on
extensions such as `".M4A"`). -/
def lowerAscii (s : String) : String :=
  String.mk (s.data.map lowerChar)

/-- Source constant `SUPPORTED_EXT = {".mp3", ".ogg", ".wav", ".flac", ".m4a"}`. -/
def SUPPORTED_EXT : List String :=
  [".mp3", ".ogg", ".wav", ".flac", ".m4a"]

/-- Hex digit for a value below 16 (used to render the path digest). -/
def hexChar (n : Nat) : Char :=
  if n < 10 then Char.ofNat (48 + n) else Char.ofNat (87 + n)

/-- Deterministic 12-hex-character digest of a path string, modelling
`hashlib.sha1(str(src).encode("utf-8")).hexdigest()[:12]` in
`_transcode_to_wav`.  The concrete digest algorithm is abstracted by a
simple deterministic rolling hash: the engine (and every claim) relies
only on the digest being a deterministic, pure function of the path
string, never on its cryptographic properties. -/
def pathDigest (s : String) : String :=
  let h : Nat := s.data.foldl (fun a c => (a * 31 + c.toNat) % (16 ^ 12)) 7
  String.mk ((List.range 12).map fun i => hexChar ((h / 16 ^ (11 - i)) % 16))

/-- The fixed output path `tmp_dir / f"{src.stem}_{h}.wav"` built by
`_transcode_to_wav` inside `tempfile.gettempdir() / "mp3player_cache"`. -/
def wavOut (src : MediaPath) : MediaPath :=
  { dir := "TMP/mp3player_cache"
    stem := src.stem ++ "_" ++ pathDigest (pathStr src)
    ext := ".wav" }

/-- One call's view of the external world: pygame mixer outcomes, the
external `ffmpeg` transcoder, the duration probe, randomness, and the
file system.  Each field abstracts exactly one external call site. -/
structure Env where
  /-- Whether `pygame.mixer.music.load(str(path))` succeeds directly on the
  `.m4a` source inside `_ensure_playable_path`. -/
  native_load_ok : Bool
  /-- Whether `shutil.which("ffmpeg")` finds the transcoder (`_ffmpeg_path`). -/
  ffmpeg_available : Bool
  /-- The `subprocess.run([ffmpeg, ...])` call exits successfully and the
  output file exists afterwards. -/
  ffmpeg_ok : Bool
  /-- The `pygame.mixer.music.load` + `play` calls in `_start_play`
  succeed on the resolved path. -/
  load_ok : Bool
  /-- Result of `_read_duration_seconds`, `none` on probe failure (the probe
  swallows its own exceptions and never aborts playback). -/
  probe_result : Option Nat
  /-- Value of `pygame.mixer.music.get_pos()`: live position in ms, may be `-1`. -/
  get_pos : Int
  /-- Randomness source: drives `random.randrange` / `random.choice`. -/
  rand : Nat
  /-- Result of `Path.exists()` during `_load_playlist_paths` filtering. -/
  fs_exists : MediaPath → Bool

/-- Result of `_transcode_to_wav` together with the side effects the
engine tracks: the temp-file registry `self._temp_files`, and (for
verification) a count of invocations of the external transcoder process. -/
structure TranscodeResult where
  out : Option MediaPath
  temp_files : List MediaPath
  calls : Nat
deriving DecidableEq, Repr

/-- Model of `_transcode_to_wav(src)`: if `ffmpeg` is missing return `None`
untouched; otherwise build the deterministic cache output path and invoke
the external transcoder — unconditionally, there is no check for an
already-existing cached output.  On success the output is registered in
`self._temp_files` and returned; on failure the exception is swallowed
and `None` is returned. -/
def transcode_to_wav (env : Env) (src : MediaPath)
    (temp_files : List MediaPath) (calls : Nat) : TranscodeResult :=
  if env.ffmpeg_available then
    let out := wavOut src
    if env.ffmpeg_ok then
      { out := some out, temp_files := temp_files ++ [out], calls := calls + 1 }
    else
      { out := none, temp_files := temp_files, calls := calls + 1 }
  else
    { out := none, temp_files := temp_files, calls := calls }

/-- Result of `_ensure_playable_path`: the path handed to the final
load, plus the threaded temp-file registry and transcoder-call count. -/
structure EnsureResult where
  path : MediaPath
  temp_files : List MediaPath
  calls : Nat
deriving DecidableEq, Repr

/-- Model of `_ensure_playable_path(path)`: non-`.m4a` files pass through; for an
`.m4a`, first attempt a native `pygame` load (success returns the source
unchanged); on native-load failure fall back to `_transcode_to_wav`,
returning the transcoded wav on success and the original source path on
failure so the caller can surface a load error. -/
def ensure_playable_path (env : Env) (path : MediaPath)
    (temp_files : List MediaPath) (calls : Nat) : EnsureResult :=
  if lowerAscii path.ext ≠ ".m4a" then
    ⟨path, temp_files, calls⟩
  else if env.native_load_ok then
    ⟨path, temp_files, calls⟩
  else
    let r := transcode_to_wav env path temp_files calls
    match r.out with
    | some wav => ⟨wav, r.temp_files, r.calls⟩
    | none => ⟨path, r.temp_files, r.calls⟩

/-- A token of `_natural_key`: `re.split(r'(\d+)', stem)` alternates
non-digit chunks (kept as lowercased character lists) with digit runs
(converted by `int(...)`). -/
inductive KeyPart where
  | str (cs : List Char)
  | num (n : Nat)
deriving DecidableEq, Repr

/-- Intermediate chunk while splitting a stem into digit runs and
non-digit runs, before lowercasing / integer conversion. -/
inductive Chunk where
  | str (cs : List Char)
  | digits (cs : List Char)
deriving DecidableEq, Repr

/-- Model of `re.split(r'(\d+)', s)` with captured groups: alternating (possibly
empty) non-digit chunks and digit runs, beginning and ending with a
non-digit chunk.  (`\d` is modelled as the ASCII digits.) -/
def splitChunks : List Char → List Chunk
  | [] => [Chunk.str []]
  | c :: cs =>
    match splitChunks cs with
    | Chunk.str s :: rest =>
      if c.isDigit then
        match s, rest with
        | [], Chunk.digits d :: rest2 =>
          Chunk.str [] :: Chunk.digits (c :: d) :: rest2
        | _, _ =>
          Chunk.str [] :: Chunk.digits [c] :: Chunk.str s :: rest
      else
        Chunk.str (c :: s) :: rest
    | other => other

/-- Value of `int(t)` on a digit run. -/
def digitsVal (cs : List Char) : Nat :=
  cs.foldl (fun a c => a * 10 + (c.toNat - 48)) 0

/-- Model of `_natural_key(p)`:
`[int(t) if t.isdigit() else t.lower() for t in re.split(r'(\d+)', p.stem)]`. -/
def naturalKey (p : MediaPath) : List KeyPart :=
  (splitChunks p.stem.data).map fun
    | Chunk.str cs => KeyPart.str (cs.map lowerChar)
    | Chunk.digits cs => KeyPart.num (digitsVal cs)

/-- Strict lexicographic comparison of character lists (Python string
`<`, by code point). -/
def charListLt : List Char → List Char → Bool
  | [], [] => false
  | [], _ :: _ => true
  | _ :: _, [] => false
  | a :: as, b :: bs => decide (a < b) || (a == b && charListLt as bs)

/-- Strict comparison of key tokens.  Python never compares an `int`
token with a `str` token here: the token lists alternate str/int in lock
step, so the cross-type case is unreachable (left `false`). -/
def keyPartLt : KeyPart → KeyPart → Bool
  | KeyPart.num a, KeyPart.num b => decide (a < b)
  | KeyPart.str a, KeyPart.str b => charListLt a b
  | _, _ => false

/-- Lexicographic non-strict comparison of natural keys (Python list
comparison). -/
def keyLe : List KeyPart → List KeyPart → Bool
  | [], _ => true
  | _ :: _, [] => false
  | a :: as, b :: bs => keyPartLt a b || (a == b && keyLe as bs)

/-- Comparison of two tracks by natural key, the order used by
`self.playlist.sort(key=_natural_key)`. -/
def trackLe (p q : MediaPath) : Bool :=
  keyLe (naturalKey p) (naturalKey q)

/-- Stable insertion of one element into an already-processed prefix:
an element is placed after every earlier element whose key is `≤` its
own, reproducing the stability of Python's sort. -/
def insertSorted (x : MediaPath) : List MediaPath → List MediaPath
  | [] => [x]
  | y :: ys => if trackLe y x then y :: insertSorted x ys else x :: y :: ys

/-- Model of `self.playlist.sort(key=_natural_key)`: a stable sort by the natural
key (Python's sort is stable; a stable sort by a total preorder is
unique, so insertion order of equal keys is preserved exactly as in the
source). -/
def sortPlaylist (l : List MediaPath) : List MediaPath :=
  l.foldl (fun acc x => insertSorted x acc) []

/-- The engine state of `MP3Player` restricted to the playback core:
every field mirrors one instance attribute, plus a model of the audio
device's busy flag and two verification-only counters.

* `device_busy` models `pygame.mixer.music.get_busy()` (pygame ≥ 2.0.1
  semantics: `False` while paused or stopped, `True` while playing).
* `volume_req` records the level last forwarded to
  `pygame.mixer.music.set_volume(level / 100)`; it is stored as the
  integer `level` itself (i.e. one hundred times the fraction handed to
  the device) so the model stays in exact integers — the map
  `level ↦ level / 100` is injective, so equality of requests is
  faithfully represented.
* `transcode_calls` counts invocations of the external transcoder and
  `errors` counts `messagebox.showerror` notifications. -/
structure Player where
  playlist : List MediaPath
  current_index : Option Nat
  paused : Bool
  shuffle : Bool
  user_stopped : Bool
  track_duration_s : Option Nat
  elapsed_base_ms : Int
  device_busy : Bool
  temp_files : List MediaPath
  transcode_calls : Nat
  errors : Nat
  volume_req : Int
deriving DecidableEq, Repr

/-- The state set up by `MP3Player.__init__` (volume slider at 80,
`set_volume(0.8)`). -/
def initState : Player :=
  { playlist := []
    current_index := none
    paused := false
    shuffle := false
    user_stopped := false
    track_duration_s := none
    elapsed_base_ms := 0
    device_busy := false
    temp_files := []
    transcode_calls := 0
    errors := 0
    volume_req := 80 }

/-- Model of `_start_play(index)`: no-op on an empty playlist; resolve a playable
path (whose transcode side effects happen before the final load and are
kept even if that load then fails), load and play it, and only on success
commit `current_index`, clear `user_stopped`/`paused`, reset the elapsed
clock and probe the duration.  On load/play failure the `except` branch
only shows an error box.  An out-of-range index raises `IndexError` at
`self.playlist[index]` before any state is touched (modelled as the
unchanged state). -/
def start_play (s : Player) (index : Nat) (env : Env) : Player :=
  if s.playlist.isEmpty then s
  else if index < s.playlist.length then
    let orig := s.playlist.getD index ⟨"", "", ""⟩
    let r := ensure_playable_path env orig s.temp_files s.transcode_calls
    if env.load_ok then
      { s with
        current_index := some index
        user_stopped := false
        paused := false
        elapsed_base_ms := 0
        device_busy := true
        track_duration_s := env.probe_result
        temp_files := r.temp_files
        transcode_calls := r.calls }
    else
      { s with
        temp_files := r.temp_files
        transcode_calls := r.calls
        errors := s.errors + 1 }
  else s

/-- Model of `_halt_playback()`: sets `user_stopped`, stops the device, clears
`paused`, and resets the elapsed clock.  Note: it does **not** touch
`current_index`; its two callers reset that themselves. -/
def halt_playback (s : Player) : Player :=
  { s with
    user_stopped := true
    device_busy := false
    paused := false
    elapsed_base_ms := 0 }

/-- Model of `clear_playlist()`: halt, then drop the selection and the playlist. -/
def clear_playlist (s : Player) : Player :=
  let s1 := halt_playback s
  { s1 with current_index := none, playlist := [] }

/-- Model of `_load_playlist_paths(paths)`: halt, drop the selection, and rebuild
the playlist from the stored paths that exist on disk and carry a
supported extension, naturally sorted. -/
def load_playlist_paths (s : Player) (paths : List MediaPath) (env : Env) : Player :=
  let s1 := halt_playback s
  let kept := paths.filter fun p =>
    env.fs_exists p && SUPPORTED_EXT.contains (lowerAscii p.ext)
  { s1 with current_index := none, playlist := sortPlaylist kept }

/-- Model of `play_pause()`: with nothing active and a non-empty playlist, exactly
`_start_play(0)`; while playing, fold the live position into
`elapsed_base_ms` (via `max(0, get_pos())`, exceptions giving `0`) and
pause; otherwise, with a track selected, unpause (modelled as the stream
resuming) and clear `paused`. -/
def play_pause (s : Player) (env : Env) : Player :=
  if s.current_index.isNone && !s.playlist.isEmpty then
    start_play s 0 env
  else if s.device_busy && !s.paused then
    { s with
      elapsed_base_ms := s.elapsed_base_ms + max 0 env.get_pos
      paused := true
      device_busy := false }
  else
    match s.current_index with
    | some _ => { s with paused := false, device_busy := true }
    | none => s

/-- Model of `prev_track()`: no-op on an empty playlist, else start
`(current_index - 1) % n` (written in `Nat` as `(c + n - 1) % n`, equal
to Python's `(c - 1) % n` for `c < n`, `n ≥ 1`), or index 0 when nothing
was active. -/
def prev_track (s : Player) (env : Env) : Player :=
  if s.playlist.isEmpty then s
  else
    let idx := match s.current_index with
      | some c => (c + s.playlist.length - 1) % s.playlist.length
      | none => 0
    start_play s idx env

/-- Model of `_pick_shuffle_index()`, as a pure function of the playlist length,
the current index and the randomness source: `random.randrange(n)` is
modelled as `rand % n` and `random.choice(choices)` as indexing
`choices` at `rand % len(choices)` — both abstract the RNG by an
arbitrary draw, which is all any claim quantifies over.  The Python set
`{current, next_seq}` is modelled by a list holding its distinct
elements. -/
def pick_shuffle_index (n : Nat) (current : Option Nat) (rand : Nat) : Option Nat :=
  if n = 0 then none
  else
    match current with
    | none => some (rand % n)
    | some c =>
      let next_seq := (c + 1) % n
      let forbidden : List Nat := if c = next_seq then [c] else [c, next_seq]
      if n ≤ forbidden.length then
        (List.range n).find? (fun i => i != c)
      else
        let choices := (List.range n).filter (fun i => decide (i ∉ forbidden))
        if choices.isEmpty then none
        else choices[rand % choices.length]?

/-- Model of `next_track()`: no-op on an empty playlist; under shuffle, start the
picked index (no-op if the picker returns `None`); otherwise start
`(current_index + 1) % n`, or index 0 when nothing was active. -/
def next_track (s : Player) (env : Env) : Player :=
  if s.playlist.isEmpty then s
  else if s.shuffle then
    match pick_shuffle_index s.playlist.length s.current_index env.rand with
    | none => s
    | some idx => start_play s idx env
  else
    let idx := match s.current_index with
      | some c => (c + 1) % s.playlist.length
      | none => 0
    start_play s idx env

/-- Model of `toggle_shuffle()`. -/
def toggle_shuffle (s : Player) : Player :=
  { s with shuffle := !s.shuffle }

/-- Model of `_on_volume(val)`: forwards `float(val) / 100` to
`pygame.mixer.music.set_volume` with no clamping of its own (any
exception from the device is swallowed); recorded here as the raw level
(see `Player.volume_req`).  No transport field is touched. -/
def on_volume (s : Player) (val : Int) : Player :=
  { s with volume_req := val }

/-- The auto-advance condition of `_poll_playback` (line:
`if not get_busy() and not self.paused and not self.user_stopped and
self.current_index is not None`). -/
def poll_trigger (s : Player) : Bool :=
  !s.device_busy && !s.paused && !s.user_stopped && s.current_index.isSome

/-- One tick of `_poll_playback`: the progress/label computation changes
no engine state; the only state effect is the auto-advance call to
`next_track()` when `poll_trigger` holds. -/
def poll_playback (s : Player) (env : Env) : Player :=
  if poll_trigger s then next_track s env else s

/-- The operations the UI and the tick loop can issue against the
engine, plus the one spontaneous external event (`deviceEnd`: the output
stream reaching its natural end, after which `get_busy()` reports
`False`). -/
inductive Op where
  | start (index : Nat)
  | playPause
  | prev
  | next
  | toggleShuffle
  | setVolume (level : Int)
  | halt
  | load (paths : List MediaPath)
  | clear
  | poll
  | deviceEnd

/-- Interpretation of one operation against the engine state, with the
external world for that step supplied by `env`. -/
def applyOp (s : Player) (op : Op) (env : Env) : Player :=
  match op with
  | Op.start i => start_play s i env
  | Op.playPause => play_pause s env
  | Op.prev => prev_track s env
  | Op.next => next_track s env
  | Op.toggleShuffle => toggle_shuffle s
  | Op.setVolume v => on_volume s v
  | Op.halt => halt_playback s
  | Op.load ps => load_playlist_paths s ps env
  | Op.clear => clear_playlist s
  | Op.poll => poll_playback s env
  | Op.deviceEnd => { s with device_busy := false }

/-- States reachable from the freshly initialised player by any sequence
of operations, under any behaviour of the external world. -/
inductive Reachable : Player → Prop where
  | init : Reachable initState
  | step {s : Player} (op : Op) (env : Env) :
      Reachable s → Reachable (applyOp s op env)

/-- A sample playable track used as a concrete input by the witnesses. -/
def trackA : MediaPath := ⟨"/m", "a", ".mp3"⟩

/-- A sample `.m4a` source for exercising the transcode fallback. -/
def srcM4a : MediaPath := ⟨"/m", "song", ".m4a"⟩

/-- Concrete environment: native `.m4a` load fails, `ffmpeg` is installed
and succeeds, the final load succeeds. -/
def envT : Env :=
  { native_load_ok := false, ffmpeg_available := true, ffmpeg_ok := true,
    load_ok := true, probe_result := none, get_pos := 0, rand := 0,
    fs_exists := fun _ => true }

/-- Concrete environment: everything native succeeds, no `ffmpeg`, the
device clock reads 5 ms. -/
def env6 : Env :=
  { native_load_ok := true, ffmpeg_available := false, ffmpeg_ok := false,
    load_ok := true, probe_result := none, get_pos := 5, rand := 0,
    fs_exists := fun _ => true }

/-- Concrete environment in which the load/play calls of `_start_play`
fail. -/
def env5 : Env :=
  { native_load_ok := false, ffmpeg_available := false, ffmpeg_ok := false,
    load_ok := false, probe_result := none, get_pos := 0, rand := 0,
    fs_exists := fun _ => true }

/-- A concrete mid-playback state: one track loaded and active. -/
def s4 : Player :=
  { initState with
    playlist := [trackA]
    current_index := some 0
    elapsed_base_ms := 5
    device_busy := true }

/-- A concrete idle state with a non-empty playlist. -/
def s5 : Player := { initState with playlist := [trackA] }

/-- A concrete reachable state: load a one-track playlist, start it, then
pause 5 ms in (so `elapsed_base_ms = 5`, `current_index = some 0`). -/
def s6 : Player :=
  applyOp (applyOp (applyOp initState (Op.load [trackA]) env6) (Op.start 0) env6)
    Op.playPause env6

/-- The `current_index` range invariant, as a predicate on states. -/
def goodIndex (s : Player) : Prop :=
  ∀ i, s.current_index = some i → i < s.playlist.length

/-- Case analysis of `_start_play`: it either leaves the selection, the
playlist and the elapsed clock untouched (empty playlist, out-of-range
index, or load/play failure) or commits an in-range selection and resets
the clock. -/
theorem start_play_cases (s : Player) (i : Nat) (env : Env) :
    ((start_play s i env).current_index = s.current_index ∧
     (start_play s i env).playlist = s.playlist ∧
     (start_play s i env).elapsed_base_ms = s.elapsed_base_ms) ∨
    ((start_play s i env).current_index = some i ∧ i < s.playlist.length ∧
     (start_play s i env).playlist = s.playlist ∧
     (start_play s i env).elapsed_base_ms = 0) := by
  unfold start_play
  split_ifs with h1 h2 h3
  · exact Or.inl ⟨rfl, rfl, rfl⟩
  · exact Or.inr ⟨rfl, h2, rfl, rfl⟩
  · exact Or.inl ⟨rfl, rfl, rfl⟩
  · exact Or.inl ⟨rfl, rfl, rfl⟩

/-- Every operation preserves the index invariant together with
non-negativity of the elapsed clock. -/
theorem applyOp_inv (s : Player) (op : Op) (env : Env)
    (h : goodIndex s ∧ 0 ≤ s.elapsed_base_ms) :
    goodIndex (applyOp s op env) ∧ 0 ≤ (applyOp s op env).elapsed_base_ms := by
  obtain ⟨hg, he⟩ := h
  have hstart : ∀ i, goodIndex (start_play s i env) ∧
      0 ≤ (start_play s i env).elapsed_base_ms := by
    intro i
    rcases start_play_cases s i env with ⟨h1, h2, h3⟩ | ⟨h1, h2, h3, h4⟩
    · refine ⟨?_, by rw [h3]; exact he⟩
      intro j hj
      rw [h2]
      exact hg j (h1 ▸ hj)
    · refine ⟨?_, by rw [h4]⟩
      intro j hj
      rw [h1] at hj
      injection hj with hij
      rw [h3, ← hij]
      exact h2
  have hnext : goodIndex (next_track s env) ∧
      0 ≤ (next_track s env).elapsed_base_ms := by
    unfold next_track
    split_ifs with h1 h2
    · exact ⟨hg, he⟩
    · cases pick_shuffle_index s.playlist.length s.current_index env.rand
      · exact ⟨hg, he⟩
      · exact hstart _
    · exact hstart _
  cases op with
  | start i => exact hstart i
  | playPause =>
    show goodIndex (play_pause s env) ∧ 0 ≤ (play_pause s env).elapsed_base_ms
    unfold play_pause
    split_ifs with h1 h2
    · exact hstart 0
    · refine ⟨fun j hj => hg j hj, ?_⟩
      have : (0 : Int) ≤ max 0 env.get_pos := le_max_left 0 env.get_pos
      show 0 ≤ s.elapsed_base_ms + max 0 env.get_pos
      omega
    · cases hcs : s.current_index with
      | none => exact ⟨hg, he⟩
      | some k =>
        refine ⟨?_, he⟩
        intro j hj
        have hj2 : some k = some j := hj
        injection hj2 with hkj
        exact hg j (hkj ▸ hcs)
  | prev =>
    show goodIndex (prev_track s env) ∧ 0 ≤ (prev_track s env).elapsed_base_ms
    unfold prev_track
    split_ifs with h1
    · exact ⟨hg, he⟩
    · exact hstart _
  | next => exact hnext
  | toggleShuffle => exact ⟨fun j hj => hg j hj, he⟩
  | setVolume v => exact ⟨fun j hj => hg j hj, he⟩
  | halt =>
    refine ⟨fun j hj => hg j hj, ?_⟩
    show (0 : Int) ≤ 0
    omega
  | load ps =>
    refine ⟨?_, ?_⟩
    · intro j hj
      exact absurd hj (by simp [applyOp, load_playlist_paths])
    · show (0 : Int) ≤ 0
      omega
  | clear =>
    refine ⟨?_, ?_⟩
    · intro j hj
      exact absurd hj (by simp [applyOp, clear_playlist])
    · show (0 : Int) ≤ 0
      omega
  | poll =>
    show goodIndex (poll_playback s env) ∧ 0 ≤ (poll_playback s env).elapsed_base_ms
    unfold poll_playback
    split_ifs with h1
    · exact hnext
    · exact ⟨hg, he⟩
  | deviceEnd => exact ⟨fun j hj => hg j hj, he⟩

/-- Both invariants hold in every reachable state. -/
theorem reachable_inv (s : Player) (h : Reachable s) :
    goodIndex s ∧ 0 ≤ s.elapsed_base_ms := by
  induction h with
  | init =>
    refine ⟨?_, ?_⟩
    · intro i hi
      exact absurd hi (by simp [initState])
    · show (0 : Int) ≤ 0
      omega
  | step op env _ ih => exact applyOp_inv _ op env ih

/-- C1: for every playlist length `n ≥ 3` and every active current index
`c` with `0 ≤ c < n`, the shuffle selector `_pick_shuffle_index` returns
(for every random draw) an index in `[0, n)` that is neither `c` nor
`(c + 1) % n`. -/
theorem pick_shuffle_index_avoids (n c rand : Nat) (hn : 3 ≤ n) (hc : c < n) :
    ∃ i, pick_shuffle_index n (some c) rand = some i ∧
      i < n ∧ i ≠ c ∧ i ≠ (c + 1) % n := by
  have hn0 : ¬ n = 0 := by omega
  have hcns : ¬ c = (c + 1) % n := by
    rcases Nat.lt_or_ge (c + 1) n with h | h
    · rw [Nat.mod_eq_of_lt h]; omega
    · have he : c + 1 = n := by omega
      rw [he, Nat.mod_self]; omega
  set ns := (c + 1) % n with hns
  set choices := (List.range n).filter (fun i => decide (i ∉ ([c, ns] : List Nat)))
    with hchoices
  have hmem : ∃ x, x ∈ choices := by
    have h3 : (0 ≠ c ∧ 0 ≠ ns) ∨ (1 ≠ c ∧ 1 ≠ ns) ∨ (2 ≠ c ∧ 2 ≠ ns) := by omega
    rcases h3 with h | h | h
    · exact ⟨0, List.mem_filter.mpr
        ⟨List.mem_range.mpr (by omega), by simp [h.1, h.2]⟩⟩
    · exact ⟨1, List.mem_filter.mpr
        ⟨List.mem_range.mpr (by omega), by simp [h.1, h.2]⟩⟩
    · exact ⟨2, List.mem_filter.mpr
        ⟨List.mem_range.mpr (by omega), by simp [h.1, h.2]⟩⟩
  obtain ⟨x, hx⟩ := hmem
  have hne : choices ≠ [] := List.ne_nil_of_mem hx
  have hempty : choices.isEmpty = false := by
    cases hc2 : choices
    · exact absurd hc2 hne
    · rfl
  have hlen : 0 < choices.length := List.length_pos.mpr hne
  have hidx : rand % choices.length < choices.length := Nat.mod_lt _ hlen
  have hget : choices[rand % choices.length]? = some choices[rand % choices.length] :=
    List.getElem?_eq_getElem hidx
  have hpick : pick_shuffle_index n (some c) rand
      = choices[rand % choices.length]? := by
    rw [pick_shuffle_index]
    simp only [if_neg hn0]
    simp only [if_neg hcns]
    rw [if_neg (show ¬ n ≤ ([c, (c + 1) % n] : List Nat).length by
      simp only [List.length_cons, List.length_nil]; omega)]
    rw [← hns, ← hchoices, hempty]
    simp
  refine ⟨choices[rand % choices.length], hpick.trans hget, ?_, ?_, ?_⟩
  · have := List.mem_filter.mp (List.getElem_mem hidx)
    exact List.mem_range.mp this.1
  · have := List.mem_filter.mp (List.getElem_mem hidx)
    have h2 := of_decide_eq_true this.2
    intro he
    exact h2 (by simp [he])
  · have := List.mem_filter.mp (List.getElem_mem hidx)
    have h2 := of_decide_eq_true this.2
    intro he
    exact h2 (by simp [hns, he])

/-- C1 witness: the guarantee instantiated at `n = 3`, `c = 0`,
`rand = 5`. -/
theorem pick_shuffle_index_avoids_witness :
    ∃ i, pick_shuffle_index 3 (some 0) 5 = some i ∧
      i < 3 ∧ i ≠ 0 ∧ i ≠ (0 + 1) % 3 :=
  pick_shuffle_index_avoids 3 0 5 (by decide) (by decide)

/-- C2 (amended): for every `.m4a` source on which the native load fails,
two successive `_ensure_playable_path` calls yield the same output path
both times, but the external transcoder is invoked once per call — twice
across the two calls when `ffmpeg` is available (and never when it is
missing); the code re-encodes on every fallback attempt instead of
reusing the cached output. -/
theorem ensure_playable_path_deterministic (env : Env) (src : MediaPath)
    (tf : List MediaPath) (c : Nat)
    (hm4a : lowerAscii src.ext = ".m4a") (hnative : env.native_load_ok = false) :
    (ensure_playable_path env src tf c).path
      = (ensure_playable_path env src (ensure_playable_path env src tf c).temp_files
          (ensure_playable_path env src tf c).calls).path ∧
    (ensure_playable_path env src (ensure_playable_path env src tf c).temp_files
        (ensure_playable_path env src tf c).calls).calls
      = c + (if env.ffmpeg_available then 2 else 0) := by
  unfold ensure_playable_path transcode_to_wav
  rcases ha : env.ffmpeg_available <;> rcases ho : env.ffmpeg_ok <;>
    simp [hm4a, hnative, ha, ho]

/-- C2 counterexample: with `ffmpeg` installed and working and the native
load failing, two resolver calls on the same `.m4a` source invoke the
external transcoder twice — refuting "at most once across the two calls"
(there is no cache-hit check before re-encoding). -/
theorem ensure_playable_path_reencodes_cex :
    ¬ ((ensure_playable_path envT srcM4a
        (ensure_playable_path envT srcM4a [] 0).temp_files
        (ensure_playable_path envT srcM4a [] 0).calls).calls ≤ 1) := by decide

/-- C2 witness: the amended guarantee at a concrete `.m4a` source with a
working transcoder. -/
theorem ensure_playable_path_deterministic_witness :
    (ensure_playable_path envT srcM4a [] 0).path
      = (ensure_playable_path envT srcM4a (ensure_playable_path envT srcM4a [] 0).temp_files
          (ensure_playable_path envT srcM4a [] 0).calls).path ∧
    (ensure_playable_path envT srcM4a (ensure_playable_path envT srcM4a [] 0).temp_files
        (ensure_playable_path envT srcM4a [] 0).calls).calls
      = 0 + (if envT.ffmpeg_available then 2 else 0) :=
  ensure_playable_path_deterministic envT srcM4a [] 0 (by decide) rfl

/-- C3: on every tick, `next()` fires exactly when the device reports not
busy, the engine is not paused, `user_stopped` is false and a track is
active; and after `_halt_playback` the tick never fires even though the
device reports not-busy (because `halt` set `user_stopped`). -/
theorem poll_auto_advance_iff :
    (∀ s : Player,
        poll_trigger s = true ↔
          s.device_busy = false ∧ s.paused = false ∧ s.user_stopped = false ∧
            s.current_index ≠ none) ∧
    (∀ (s : Player) (env : Env),
        (halt_playback s).device_busy = false ∧
        poll_playback (halt_playback s) env = halt_playback s) := by
  constructor
  · intro s
    cases hb : s.device_busy <;> cases hp : s.paused <;> cases hu : s.user_stopped <;>
      cases hc : s.current_index <;> simp [poll_trigger, hb, hp, hu, hc]
  · intro s env
    refine ⟨rfl, ?_⟩
    simp [poll_playback, poll_trigger, halt_playback]

/-- C3 witness: after halting a concrete mid-playback state, the device
reports not-busy and the tick leaves the state unchanged. -/
theorem poll_auto_advance_iff_witness :
    (halt_playback s4).device_busy = false ∧
    poll_playback (halt_playback s4) env6 = halt_playback s4 :=
  poll_auto_advance_iff.2 s4 env6

/-- C4 counterexample: `_halt_playback` on a concrete active state does
not reset `current_index` to none, so the four claimed postconditions do
not all hold (the other three do). -/
theorem halt_leaves_index_cex :
    ¬ ((halt_playback s4).user_stopped = true ∧
       (halt_playback s4).device_busy = false ∧
       (halt_playback s4).current_index = none ∧
       (halt_playback s4).elapsed_base_ms = 0) := by decide

/-- C4 (amended): `halt()` sets `user_stopped`, stops the device and
resets the elapsed clock, but leaves `current_index` unchanged; the reset
of `current_index` to none is performed by its callers (`clear_playlist`
and `_load_playlist_paths`) immediately after halting. -/
theorem halt_playback_spec (s : Player) (paths : List MediaPath) (env : Env) :
    (halt_playback s).user_stopped = true ∧
    (halt_playback s).device_busy = false ∧
    (halt_playback s).elapsed_base_ms = 0 ∧
    (halt_playback s).current_index = s.current_index ∧
    (clear_playlist s).current_index = none ∧
    (load_playlist_paths s paths env).current_index = none :=
  ⟨rfl, rfl, rfl, rfl, rfl, rfl⟩

/-- C4 witness: the amended postconditions at a concrete active state. -/
theorem halt_playback_spec_witness :
    (halt_playback s4).user_stopped = true ∧
    (halt_playback s4).device_busy = false ∧
    (halt_playback s4).elapsed_base_ms = 0 ∧
    (halt_playback s4).current_index = s4.current_index ∧
    (clear_playlist s4).current_index = none ∧
    (load_playlist_paths s4 [trackA] env6).current_index = none :=
  halt_playback_spec s4 [trackA] env6

/-- C5: for every valid index, when the load/play path fails,
`_start_play` leaves `current_index`, `paused`, `user_stopped`,
`elapsed_base_ms` and `track_duration_s` at their pre-attempt values and
reports exactly one user-visible error; in particular `current_index`
never ends up pointing at a track that failed to load. -/
theorem start_play_failure_preserves (s : Player) (i : Nat) (env : Env)
    (hi : i < s.playlist.length) (hfail : env.load_ok = false) :
    (start_play s i env).current_index = s.current_index ∧
    (start_play s i env).paused = s.paused ∧
    (start_play s i env).user_stopped = s.user_stopped ∧
    (start_play s i env).elapsed_base_ms = s.elapsed_base_ms ∧
    (start_play s i env).track_duration_s = s.track_duration_s ∧
    (start_play s i env).errors = s.errors + 1 := by
  have hne : s.playlist.isEmpty = false := by
    cases hpl : s.playlist
    · rw [hpl] at hi
      simp at hi
    · rfl
  simp [start_play, hne, hi, hfail]

/-- C5 witness: a failing start on a concrete one-track playlist. -/
theorem start_play_failure_preserves_witness :
    (start_play s5 0 env5).current_index = s5.current_index ∧
    (start_play s5 0 env5).paused = s5.paused ∧
    (start_play s5 0 env5).user_stopped = s5.user_stopped ∧
    (start_play s5 0 env5).elapsed_base_ms = s5.elapsed_base_ms ∧
    (start_play s5 0 env5).track_duration_s = s5.track_duration_s ∧
    (start_play s5 0 env5).errors = s5.errors + 1 :=
  start_play_failure_preserves s5 0 env5 (by decide) rfl

/-- C6 counterexample: a reachable state with `elapsed_base_ms = 5` on
which `halt` (not `start`) resets the elapsed clock to 0 — refuting
"reset to 0 exactly on each start()". -/
theorem elapsed_reset_not_only_start_cex :
    Reachable s6 ∧ s6.elapsed_base_ms = 5 ∧
    (applyOp s6 Op.halt env6).elapsed_base_ms = 0 :=
  ⟨Reachable.step Op.playPause env6
      (Reachable.step (Op.start 0) env6
        (Reachable.step (Op.load [trackA]) env6 Reachable.init)),
   by decide, by decide⟩

/-- C6 (amended): in every reachable state `elapsed_base_ms ≥ 0`, and the
clock is reset to 0 by every successful `start()` and also by every
`halt()` (hence by playlist clear/load, which call halt). -/
theorem elapsed_clock_invariant :
    (∀ s : Player, Reachable s → 0 ≤ s.elapsed_base_ms) ∧
    (∀ (s : Player) (i : Nat) (env : Env),
        env.load_ok = true → s.playlist.isEmpty = false → i < s.playlist.length →
        (start_play s i env).elapsed_base_ms = 0) ∧
    (∀ s : Player, (halt_playback s).elapsed_base_ms = 0) := by
  refine ⟨fun s h => (reachable_inv s h).2, ?_, fun s => rfl⟩
  intro s i env hok hne hi
  simp [start_play, hne, hi, hok]

/-- C6 witness: the invariant at the concrete reachable state `s6` and
the two reset clauses at concrete inputs. -/
theorem elapsed_clock_invariant_witness :
    0 ≤ s6.elapsed_base_ms ∧
    (start_play s5 0 envT).elapsed_base_ms = 0 ∧
    (halt_playback s4).elapsed_base_ms = 0 :=
  ⟨elapsed_clock_invariant.1 s6
      (Reachable.step Op.playPause env6
        (Reachable.step (Op.start 0) env6
          (Reachable.step (Op.load [trackA]) env6 Reachable.init))),
   elapsed_clock_invariant.2.1 s5 0 envT rfl (by decide) (by decide),
   elapsed_clock_invariant.2.2 s4⟩

/-- C7: in every state reachable by any sequence of operations (start,
playPause, prev, next, toggleShuffle, setVolume, halt, playlist load,
playlist clear, the progress tick, and the device ending a stream),
`current_index` is none or satisfies `0 ≤ current_index < len(playlist)`. -/
theorem current_index_in_range (s : Player) (h : Reachable s) :
    s.current_index = none ∨
      ∃ i, s.current_index = some i ∧ i < s.playlist.length := by
  cases hc : s.current_index with
  | none => exact Or.inl rfl
  | some i => exact Or.inr ⟨i, rfl, (reachable_inv s h).1 i hc⟩

/-- C7 witness: the invariant at the concrete reachable state `s6`. -/
theorem current_index_in_range_witness :
    s6.current_index = none ∨
      ∃ i, s6.current_index = some i ∧ i < s6.playlist.length :=
  current_index_in_range s6
    (Reachable.step Op.playPause env6
      (Reachable.step (Op.start 0) env6
        (Reachable.step (Op.load [trackA]) env6 Reachable.init)))

/-- C8: when no track is active and the playlist is non-empty,
`play_pause()` produces exactly the state of `start(0)`. -/
theorem play_pause_idle_eq_start (s : Player) (env : Env)
    (hc : s.current_index = none) (hp : s.playlist ≠ []) :
    play_pause s env = start_play s 0 env := by
  have h2 : s.playlist.isEmpty = false := by
    cases hpl : s.playlist
    · exact absurd hpl hp
    · rfl
  simp [play_pause, hc, h2]

/-- C8 witness: the equivalence at a concrete idle one-track state. -/
theorem play_pause_idle_eq_start_witness :
    play_pause s5 envT = start_play s5 0 envT :=
  play_pause_idle_eq_start s5 envT rfl (by decide)

/-- C9 counterexample: `_on_volume` does not clamp — level 150 does not
behave as level 100, and level −5 does not behave as level 0 (the raw
level is forwarded to the device as `level / 100` unchanged). -/
theorem on_volume_unclamped_cex :
    on_volume initState 150 ≠ on_volume initState 100 ∧
    on_volume initState (-5) ≠ on_volume initState 0 :=
  ⟨by decide, by decide⟩

/-- C9 (amended): `setVolume(level)` forwards `level / 100` to the audio
device with no clamping in the player code (out-of-range levels are
passed through; any clamping is the device's) and does not interrupt
playback: no transport field changes. -/
theorem on_volume_spec (s : Player) (val : Int) :
    (on_volume s val).volume_req = val ∧
    (on_volume s val).current_index = s.current_index ∧
    (on_volume s val).paused = s.paused ∧
    (on_volume s val).user_stopped = s.user_stopped ∧
    (on_volume s val).device_busy = s.device_busy ∧
    (on_volume s val).elapsed_base_ms = s.elapsed_base_ms ∧
    (on_volume s val).playlist = s.playlist ∧
    (on_volume s val).track_duration_s = s.track_duration_s :=
  ⟨rfl, rfl, rfl, rfl, rfl, rfl, rfl, rfl⟩

/-- C9 witness: the amended guarantee at level 150 on the initial
state. -/
theorem on_volume_spec_witness :
    (on_volume initState 150).volume_req = 150 ∧
    (on_volume initState 150).current_index = initState.current_index ∧
    (on_volume initState 150).paused = initState.paused ∧
    (on_volume initState 150).user_stopped = initState.user_stopped ∧
    (on_volume initState 150).device_busy = initState.device_busy ∧
    (on_volume initState 150).elapsed_base_ms = initState.elapsed_base_ms ∧
    (on_volume initState 150).playlist = initState.playlist ∧
    (on_volume initState 150).track_duration_s = initState.track_duration_s :=
  on_volume_spec initState 150

/-- C10: with shuffle disabled, a non-empty playlist and no active track,
`next_track()` starts playback at index 0 (the same fallback the spec
states only for `prev()`). -/
theorem next_track_idle_starts_first (s : Player) (env : Env)
    (hs : s.shuffle = false) (hc : s.current_index = none) (hp : s.playlist ≠ []) :
    next_track s env = start_play s 0 env := by
  have h2 : s.playlist.isEmpty = false := by
    cases hpl : s.playlist
    · exact absurd hpl hp
    · rfl
  simp [next_track, hs, hc, h2]

/-- C10 witness: the fallback at a concrete idle one-track state. -/
theorem next_track_idle_starts_first_witness :
    next_track s5 envT = start_play s5 0 envT :=
  next_track_idle_starts_first s5 envT rfl rfl (by decide)

end MP3
